import Mathlib

/-!
Verification of the shellvetica terminal-output-to-HTML converter.

The Rust sources are embedded shallowly:
* `Styles`  — `src/styles.rs` (`EightBitColor`, `Color`, `StyleNode`,
  `StyleNode::from_ansi_node`, the color-to-hex serialization and
  `StyleNode::to_html`).  Machine integers (`u8`, `u16`) become `Nat`;
  the places where the Rust performs a narrowing cast or a clamp are
  modelled with `% 256` and `min _ 255` respectively.
* `SV`      — `src/shellvetica.rs` (`Color`, `Token`, `str_2_ast`,
  `optimize_ast`).
* `Nodes`   — `src/nodes.rs` (`normalize_crlf`, `AnsiNode`,
  `parse_to_nodes`).  The byte-level escape-sequence state machine of
  the external `vte` crate is not part of the repository sources and is
  modelled from the specification (see the doc comment on `lexGo`).
-/

namespace Styles

/-- The eight base terminal colors, from `src/styles.rs`. -/
inductive EightBitColor
  | Black | Red | Green | Yellow | Blue | Magenta | Cyan | White
deriving DecidableEq

/-- Rust `EightBitColor::from_u8`: indices 0-7 select a color, anything else is Black. -/
def EightBitColor.from_u8 (value : Nat) : EightBitColor :=
  match value with
  | 0 => .Black
  | 1 => .Red
  | 2 => .Green
  | 3 => .Yellow
  | 4 => .Blue
  | 5 => .Magenta
  | 6 => .Cyan
  | 7 => .White
  | _ => .Black

/-- The `Color` enum of `src/styles.rs`; `u8` channel values become `Nat`. -/
inductive Color
  | Standard (c : EightBitColor)
  | Bright (c : EightBitColor)
  | Palette (n : Nat)
  | Rgb (r g b : Nat)
deriving DecidableEq

/-- The `UnderlineStyle` enum of `src/styles.rs`. -/
inductive UnderlineStyle
  | Single | Double | Curly | Dotted | Dashed
deriving DecidableEq

/-- The `Font` enum of `src/styles.rs`. -/
inductive Font
  | One | Two | Three | Four | Five | Six | Seven | Eight | Nine
deriving DecidableEq

/-- Rust `Font::from_u8`: 1-9 select a font, 0 and everything else give `none`. -/
def Font.from_u8 (value : Nat) : Option Font :=
  match value with
  | 1 => some .One
  | 2 => some .Two
  | 3 => some .Three
  | 4 => some .Four
  | 5 => some .Five
  | 6 => some .Six
  | 7 => some .Seven
  | 8 => some .Eight
  | 9 => some .Nine
  | _ => none

/-- The `StyleNode` record of `src/styles.rs`, one field per Rust field. -/
structure StyleNode where
  bold : Bool
  dim : Bool
  italic : Bool
  underline : Option UnderlineStyle
  underline_color : Option Color
  subscript : Bool
  superscript : Bool
  blink : Bool
  reverse : Bool
  hidden : Bool
  strikethrough : Bool
  rapid_blink : Bool
  font : Option Font
  fraktur : Bool
  proportional_spacing : Bool
  framed : Bool
  encircled : Bool
  overlined : Bool
  foreground : Option Color
  background : Option Color
  fg_bright_from_bold : Bool
  bg_bright_from_bold : Bool
deriving DecidableEq

/-- Rust `StyleNode::default()`: every flag off, every optional attribute absent. -/
def StyleNode.default : StyleNode where
  bold := false
  dim := false
  italic := false
  underline := none
  underline_color := none
  subscript := false
  superscript := false
  blink := false
  reverse := false
  hidden := false
  strikethrough := false
  rapid_blink := false
  font := none
  fraktur := false
  proportional_spacing := false
  framed := false
  encircled := false
  overlined := false
  foreground := none
  background := none
  fg_bright_from_bold := false
  bg_bright_from_bold := false

/-- The `[21 | 22, ..]` arm of `StyleNode::from_ansi_node`: bold and dim off,
and a bright color that was promoted from bold is downgraded back to standard. -/
def StyleNode.boldOff (result : StyleNode) : StyleNode :=
  let r0 := { result with bold := false, dim := false }
  let r1 :=
    if r0.fg_bright_from_bold then
      match r0.foreground with
      | some (.Bright n) => { r0 with foreground := some (.Standard n), fg_bright_from_bold := false }
      | _ => r0
    else r0
  if r1.bg_bright_from_bold then
    match r1.background with
    | some (.Bright n) => { r1 with background := some (.Standard n), bg_bright_from_bold := false }
    | _ => r1
  else r1

/-- The `[1, ..]` arm of `StyleNode::from_ansi_node`: bold on, and a currently
standard foreground/background is promoted to bright with the provenance flag set. -/
def StyleNode.boldOn (result : StyleNode) : StyleNode :=
  let r0 := { result with bold := true }
  let r1 :=
    match r0.foreground with
    | some (.Standard n) => { r0 with foreground := some (.Bright n), fg_bright_from_bold := true }
    | _ => r0
  match r1.background with
  | some (.Standard n) => { r1 with background := some (.Bright n), bg_bright_from_bold := true }
  | _ => r1

/-- One arm of the `match param_group.as_slice()` dispatch inside
`StyleNode::from_ansi_node`, translated arm for arm; the slice-range
patterns (`11..=19`, `30..=37`, `40..=47`, `90..=97`, `100..=107`) are
handled in the fallback branch.  The `u16 as u8` cast on palette indices
becomes `% 256` and the `.min(255)` clamp on RGB channels is kept. -/
def applyGroup (result : StyleNode) (g : List Nat) : StyleNode :=
  match g with
  | 0 :: _ => StyleNode.default
  | 1 :: _ => result.boldOn
  | 2 :: _ => { result with dim := true }
  | 3 :: _ => { result with italic := true }
  | 4 :: style :: _ =>
    { result with underline :=
        match style with
        | 0 => none
        | 1 => some .Single
        | 2 => some .Double
        | 3 => some .Curly
        | 4 => some .Dotted
        | 5 => some .Dashed
        | _ => some .Single }
  | [4] => { result with underline := some .Single }
  | 5 :: _ => { result with blink := true }
  | 6 :: _ => { result with rapid_blink := true }
  | 7 :: _ => { result with reverse := true }
  | 8 :: _ => { result with hidden := true }
  | 9 :: _ => { result with strikethrough := true }
  | 10 :: _ => { result with font := Font.from_u8 0 }
  | 20 :: _ => { result with fraktur := true }
  | 21 :: _ => result.boldOff
  | 22 :: _ => result.boldOff
  | 23 :: _ => { result with italic := false }
  | 24 :: _ => { result with underline := none }
  | 25 :: _ => { result with blink := false, rapid_blink := false }
  | 26 :: _ => { result with proportional_spacing := true }
  | 27 :: _ => { result with reverse := false }
  | 28 :: _ => { result with hidden := false }
  | 29 :: _ => { result with strikethrough := false }
  | 38 :: 5 :: palette :: _ => { result with foreground := some (.Palette (palette % 256)) }
  | 38 :: 2 :: r :: g :: b :: _ =>
    { result with foreground := some (.Rgb (min r 255) (min g 255) (min b 255)) }
  | 39 :: _ => { result with foreground := none }
  | 48 :: 5 :: palette :: _ => { result with background := some (.Palette (palette % 256)) }
  | 48 :: 2 :: r :: g :: b :: _ =>
    { result with background := some (.Rgb (min r 255) (min g 255) (min b 255)) }
  | 49 :: _ => { result with background := none }
  | 50 :: _ => { result with proportional_spacing := false }
  | 51 :: _ => { result with framed := true }
  | 52 :: _ => { result with encircled := true }
  | 53 :: _ => { result with overlined := true }
  | 54 :: _ => { result with framed := false, encircled := false }
  | 55 :: _ => { result with overlined := false }
  | 58 :: 5 :: palette :: _ => { result with underline_color := some (.Palette (palette % 256)) }
  | 58 :: 2 :: r :: g :: b :: _ =>
    { result with underline_color := some (.Rgb (min r 255) (min g 255) (min b 255)) }
  | 59 :: _ => { result with underline_color := none }
  | 73 :: _ => { result with superscript := true, subscript := false }
  | 74 :: _ => { result with subscript := true, superscript := false }
  | 75 :: _ => { result with subscript := false, superscript := false }
  | n :: _ =>
    if 11 ≤ n ∧ n ≤ 19 then { result with font := Font.from_u8 (n - 10) }
    else if 30 ≤ n ∧ n ≤ 37 then
      if result.bold then
        { result with fg_bright_from_bold := true,
                      foreground := some (.Bright (EightBitColor.from_u8 (n - 30))) }
      else { result with foreground := some (.Standard (EightBitColor.from_u8 (n - 30))) }
    else if 40 ≤ n ∧ n ≤ 47 then
      if result.bold then
        { result with bg_bright_from_bold := true,
                      background := some (.Bright (EightBitColor.from_u8 (n - 40))) }
      else { result with background := some (.Standard (EightBitColor.from_u8 (n - 40))) }
    else if 90 ≤ n ∧ n ≤ 97 then
      { result with foreground := some (.Bright (EightBitColor.from_u8 (n - 90))) }
    else if 100 ≤ n ∧ n ≤ 107 then
      { result with background := some (.Bright (EightBitColor.from_u8 (n - 100))) }
    else result
  | [] => result

/-- Rust `StyleNode::from_ansi_node`: fold every parameter group, in order,
over the default state. -/
def from_ansi_node (params : List (List Nat)) : StyleNode :=
  params.foldl applyGroup StyleNode.default

/-- Entry `HEX_CHARS[n]` of `src/styles.rs`: the lowercase hex digit at index `n`. -/
def hexDigit (n : Nat) : Char :=
  match n with
  | 0 => '0'
  | 1 => '1'
  | 2 => '2'
  | 3 => '3'
  | 4 => '4'
  | 5 => '5'
  | 6 => '6'
  | 7 => '7'
  | 8 => '8'
  | 9 => '9'
  | 10 => 'a'
  | 11 => 'b'
  | 12 => 'c'
  | 13 => 'd'
  | 14 => 'e'
  | _ => 'f'

/-- Rust `StyleNode::standard_color_to_hex`: the fixed 8-entry standard table. -/
def standard_color_to_hex : EightBitColor → String
  | .Black => "#000"
  | .Red => "#cd0000"
  | .Green => "#00cd00"
  | .Yellow => "#cdcd00"
  | .Blue => "#00e"
  | .Magenta => "#cd00cd"
  | .Cyan => "#00cdcd"
  | .White => "#e5e5e5"

/-- Rust `StyleNode::bright_color_to_hex`: the fixed 8-entry bright table. -/
def bright_color_to_hex : EightBitColor → String
  | .Black => "#7f7f7f"
  | .Red => "#f00"
  | .Green => "#0f0"
  | .Yellow => "#ff0"
  | .Blue => "#5c5cff"
  | .Magenta => "#f0f"
  | .Cyan => "#0ff"
  | .White => "#fff"

/-- Rust `StyleNode::push_hex`: two lowercase hex digits of a byte
(`HEX_CHARS[b >> 4]` then `HEX_CHARS[b & 0xf]`). -/
def push_hex (b : Nat) : String :=
  String.mk [hexDigit (b / 16), hexDigit (b % 16)]

/-- Rust `StyleNode::push_hex_rgb`: `#RGB` shorthand when every channel has equal
high and low nibble (`r & 0x0F == r >> 4` on a byte is `r % 16 = r / 16`),
otherwise full `#RRGGBB`. -/
def push_hex_rgb (r g b : Nat) : String :=
  if r % 16 = r / 16 ∧ g % 16 = g / 16 ∧ b % 16 = b / 16 then
    String.mk ['#', hexDigit (r % 16), hexDigit (g % 16), hexDigit (b % 16)]
  else
    "#" ++ push_hex r ++ push_hex g ++ push_hex b

/-- Rust `StyleNode::append_color`, returning the hex string the Rust pushes:
standard and bright go through the fixed tables, palette 0-7 and 8-15
redirect to those tables, 16-231 use the 6x6x6 cube formula, 232-255 the
grayscale ramp, and `Rgb` goes straight to `push_hex_rgb`. -/
def append_color : Color → String
  | .Standard c => standard_color_to_hex c
  | .Bright c => bright_color_to_hex c
  | .Palette n =>
    if n ≤ 7 then standard_color_to_hex (EightBitColor.from_u8 n)
    else if n ≤ 15 then bright_color_to_hex (EightBitColor.from_u8 (n - 8))
    else if n ≤ 231 then
      push_hex_rgb ((n - 16) / 36 * 51) ((n - 16) % 36 / 6 * 51) ((n - 16) % 6 * 51)
    else
      push_hex_rgb (8 + (n - 232) * 10) (8 + (n - 232) * 10) (8 + (n - 232) * 10)
  | .Rgb r g b => push_hex_rgb r g b

/-- One `text-decoration` fragment of `StyleNode::to_html`. -/
def underlineDecl : Option UnderlineStyle → String
  | none => ""
  | some .Single => "text-decoration:underline;"
  | some .Double => "text-decoration:underline double;"
  | some .Curly => "text-decoration:underline wavy;"
  | some .Dotted => "text-decoration:underline dotted;"
  | some .Dashed => "text-decoration:underline dashed;"

/-- Rust `StyleNode::to_html`.  The Rust method takes `&mut self` and, when
`reverse` is set, swaps the `foreground` and `background` fields of the
record in place before emitting them; the model therefore returns both the
produced string and the state of the record after the call. -/
def to_html (s : StyleNode) : String × StyleNode :=
  let tag := if s.subscript then "sub" else if s.superscript then "sup" else "span"
  let h0 := "<" ++ tag ++ " style=\""
  let h1 := h0 ++ (if s.bold then "font-weight:bold;" else "")
  let h2 := h1 ++ (if s.dim then "opacity:.5;" else "")
  let h3 := h2 ++ (if s.italic then "font-style:italic;" else "")
  let h4 := h3 ++ underlineDecl s.underline
  let h5 := h4 ++
    (match s.underline_color with
     | none => ""
     | some c => "text-decoration-color:" ++ append_color c ++ ";")
  let s2 := if s.reverse then
      { s with background := s.foreground, foreground := s.background }
    else s
  let h6 := h5 ++
    (match s2.foreground with
     | none => ""
     | some c => "color:" ++ append_color c ++ ";")
  let h7 := h6 ++
    (match s2.background with
     | none => ""
     | some c => "background:" ++ append_color c ++ ";")
  (h7 ++ "\">", s2)

end Styles

namespace SV

/-- The eight colors of `src/shellvetica.rs`. -/
inductive SColor
  | Black | Red | Green | Yellow | Blue | Magenta | Cyan | White
deriving DecidableEq

/-- The `Token` enum of `src/shellvetica.rs`. -/
inductive Token
  | Text (c : Char)
  | Color (c : SColor)
  | Close
deriving DecidableEq

/-- Rust `char::is_whitespace`: the Unicode `White_Space` code points. -/
def rustWhitespace (c : Char) : Bool :=
  (9 ≤ c.toNat && c.toNat ≤ 13) || c.toNat = 32 || c.toNat = 0x85 || c.toNat = 0xA0 ||
  c.toNat = 0x1680 || (0x2000 ≤ c.toNat && c.toNat ≤ 0x200A) ||
  c.toNat = 0x2028 || c.toNat = 0x2029 || c.toNat = 0x202F || c.toNat = 0x205F ||
  c.toNat = 0x3000

/-- The forward scan of the `Token::Close` arm of `Shellvetica::optimize_ast`:
walking the tokens after the close with the non-whitespace evidence seen so
far, decide whether the close is emitted.  Hitting a `Color` gives
`has_non_whitespace && has_color || has_different_color`; hitting a `Close`
gives `false`; running off the end gives `j == ast.len() && !has_color`,
i.e. `true`. -/
def emitClose (openColor : SColor) : Bool → List Token → Bool
  | _, [] => true
  | hnw, .Text c :: rest => emitClose openColor (hnw || !(rustWhitespace c)) rest
  | hnw, .Color next :: _ => hnw || decide (next ≠ openColor)
  | _, .Close :: _ => false

/-- The scan loop of `Shellvetica::optimize_ast` with its `current_color`
state: a `Color` equal to the open one is dropped, a different or first
`Color` is pushed and becomes current, a `Close` with no open color is
dropped, and a `Close` with an open color is pushed exactly when
`emitClose` says so. -/
def optimizeGo (cur : Option SColor) : List Token → List Token
  | [] => []
  | .Text c :: rest => .Text c :: optimizeGo cur rest
  | .Color d :: rest =>
    match cur with
    | some c => if c = d then optimizeGo (some c) rest else .Color d :: optimizeGo (some d) rest
    | none => .Color d :: optimizeGo (some d) rest
  | .Close :: rest =>
    match cur with
    | none => optimizeGo none rest
    | some c =>
      if emitClose c false rest then .Close :: optimizeGo none rest
      else optimizeGo (some c) rest

/-- Rust `Shellvetica::optimize_ast`: run the scan with no color open. -/
def optimize_ast (ast : List Token) : List Token :=
  optimizeGo none ast

/-- The ESC byte `0x1B` as a character. -/
def escChar : Char := Char.ofNat 27

/-- Rust `char::is_ascii_alphabetic`. -/
def isAsciiAlphaChar (c : Char) : Bool :=
  ('A' ≤ c && c ≤ 'Z') || ('a' ≤ c && c ≤ 'z')

/-- The `match sequence.as_str()` dispatch of `Shellvetica::str_2_ast`:
the eight standard foreground selectors map to their colors, the five
close spellings map to `Close`, and every other sequence maps to
`Color Black`. -/
def tokenOf (seq : List Char) : Token :=
  if seq = [escChar, '[', '3', '0', 'm'] then .Color .Black
  else if seq = [escChar, '[', '3', '1', 'm'] then .Color .Red
  else if seq = [escChar, '[', '3', '2', 'm'] then .Color .Green
  else if seq = [escChar, '[', '3', '3', 'm'] then .Color .Yellow
  else if seq = [escChar, '[', '3', '4', 'm'] then .Color .Blue
  else if seq = [escChar, '[', '3', '5', 'm'] then .Color .Magenta
  else if seq = [escChar, '[', '3', '6', 'm'] then .Color .Cyan
  else if seq = [escChar, '[', '3', '7', 'm'] then .Color .White
  else if seq = [escChar, '[', '3', '9', 'm'] ∨ seq = [escChar, '[', '4', '9', 'm'] ∨
          seq = [escChar, '[', '3', '9', ';', '4', '9', 'm'] ∨
          seq = [escChar, '[', '4', '9', ';', '3', '9', 'm'] ∨
          seq = [escChar, '[', '0', 'm'] then .Close
  else .Color .Black

/-- The scan of `Shellvetica::str_2_ast` with the in-progress control
sequence made explicit.  With mode `none` characters are scanned normally:
an ESC followed by `[` opens a sequence buffer `[ESC, '[']`, while an ESC
not followed by `[` and every other character become `Text` tokens.  With
mode `some buf` (mirroring the inner `while let Some(&next_char) =
chars.peek()` loop) characters are appended to the buffer until an
ASCII-alphabetic one has been consumed, at which point the buffer is
dispatched through `tokenOf`; the end of input also dispatches the buffer,
as the Rust loop falls through to the `match` on the collected string. -/
def s2aGo : Option (List Char) → List Char → List Token
  | none, [] => []
  | some buf, [] => [tokenOf buf]
  | some buf, c :: cs =>
    if isAsciiAlphaChar c then tokenOf (buf ++ [c]) :: s2aGo none cs
    else s2aGo (some (buf ++ [c])) cs
  | none, c :: cs =>
    if c = escChar then
      match cs with
      | '[' :: cs2 => s2aGo (some [escChar, '[']) cs2
      | [] => [.Text c]
      | c2 :: cs2 => .Text c :: s2aGo none (c2 :: cs2)
    else .Text c :: s2aGo none cs

/-- Rust `Shellvetica::str_2_ast`: scan from normal mode. -/
def str_2_ast (input : List Char) : List Token :=
  s2aGo none input

end SV

namespace Nodes

/-- The `AnsiNode` enum of `src/nodes.rs`; bytes become `Nat`, strings become
byte lists (the text payload is kept byte-for-byte), and the final `char`
code of a CSI becomes the final byte. -/
inductive AnsiNode
  | Text (s : List Nat)
  | Csi (params : List (List Nat)) (intermediates : List Nat) (code : Nat)
  | Esc (intermediates : List Nat) (byte : Nat)
  | ControlChar (b : Nat)
  | Osc (params : List (List Nat)) (bell_terminated : Bool)
deriving DecidableEq

/-- Rust `TerminalOutputParser::normalize_crlf`: every CRLF byte pair becomes a
single line feed; everything else is copied. -/
def normalize_crlf : List Nat → List Nat
  | 13 :: 10 :: rest => 10 :: normalize_crlf rest
  | b :: rest => b :: normalize_crlf rest
  | [] => []

/-- ASCII alphabetic byte (the CSI final byte per the specification). -/
def isAlphaByte (b : Nat) : Bool :=
  (65 ≤ b && b ≤ 90) || (97 ≤ b && b ≤ 122)

/-- The lexer state between two input bytes: plain text accumulation, an ESC
seen (with collected intermediates), inside a CSI (completed parameter
groups, completed sub-values of the current group, the sub-value being
read, intermediates), or inside an OSC (completed parameters, current
parameter bytes). -/
inductive LexMode
  | ground (txt : List Nat)
  | escape (inter : List Nat)
  | csi (groups : List (List Nat)) (curGroup : List Nat) (curVal : Nat) (inter : List Nat)
  | osc (ps : List (List Nat)) (cur : List Nat)
deriving DecidableEq

/-- Helper `flush_text` of `src/nodes.rs`: an empty text run is never emitted. -/
def flushT (txt : List Nat) : List AnsiNode :=
  if txt = [] then [] else [.Text txt]

/-- Modelled from the spec: the byte-level escape-sequence state machine of
the external `vte` crate driving the `Perform` callbacks of
`TerminalOutputParser` (`src/nodes.rs`), which is not part of the
repository sources.  Following section 4.1 of the specification: printable
bytes and the pass-through control bytes tab, line feed and carriage
return extend the current text run; any other C0 byte or DEL flushes the
run and becomes a standalone `ControlChar`; ESC `[` begins a CSI whose
parameter positions are separated by `;` (sub-values by `:`, an absent
value defaulting to 0) until an alphabetic final byte dispatches the node;
ESC `]` begins an OSC whose `;`-separated byte-string parameters
accumulate until BEL (`bell_terminated = true`) or ESC `\`
(`bell_terminated = false`, the `\` then dispatching as its own escape, as
the repository's `osc_sequence_test` shows); ESC before any other byte
dispatches a single escape with the intermediate bytes `0x20`-`0x2F`
collected beforehand; an incomplete sequence at end of input is discarded
while the pending text run is flushed. -/
def lexGo : LexMode → List Nat → List AnsiNode
  | .ground txt, [] => flushT txt
  | .escape _, [] => []
  | .csi _ _ _ _, [] => []
  | .osc _ _, [] => []
  | .ground txt, b :: rest =>
    if b = 27 then flushT txt ++ lexGo (.escape []) rest
    else if b = 9 ∨ b = 10 ∨ b = 13 then lexGo (.ground (txt ++ [b])) rest
    else if b < 32 ∨ b = 127 then flushT txt ++ .ControlChar b :: lexGo (.ground []) rest
    else lexGo (.ground (txt ++ [b])) rest
  | .escape inter, b :: rest =>
    if b = 91 then lexGo (.csi [] [] 0 []) rest
    else if b = 93 then lexGo (.osc [] []) rest
    else if 32 ≤ b ∧ b ≤ 47 then lexGo (.escape (inter ++ [b])) rest
    else .Esc inter b :: lexGo (.ground []) rest
  | .csi groups curGroup curVal inter, b :: rest =>
    if isAlphaByte b then
      .Csi (groups ++ [curGroup ++ [curVal]]) inter b :: lexGo (.ground []) rest
    else if 48 ≤ b ∧ b ≤ 57 then lexGo (.csi groups curGroup (curVal * 10 + (b - 48)) inter) rest
    else if b = 59 then lexGo (.csi (groups ++ [curGroup ++ [curVal]]) [] 0 inter) rest
    else if b = 58 then lexGo (.csi groups (curGroup ++ [curVal]) 0 inter) rest
    else lexGo (.csi groups curGroup curVal (inter ++ [b])) rest
  | .osc ps cur, b :: rest =>
    if b = 7 then .Osc (ps ++ [cur]) true :: lexGo (.ground []) rest
    else if b = 27 then .Osc (ps ++ [cur]) false :: lexGo (.escape []) rest
    else if b = 59 then lexGo (.osc (ps ++ [cur]) []) rest
    else lexGo (.osc ps (cur ++ [b])) rest

/-- Rust `TerminalOutputParser::parse_to_nodes`: CRLF-normalize, then lex from the
ground state with an empty text run. -/
def parse_to_nodes (input : List Nat) : List AnsiNode :=
  lexGo (.ground []) (normalize_crlf input)

/-- The concatenation, in order, of the contents of all `Text` nodes. -/
def textConcat : List AnsiNode → List Nat
  | [] => []
  | .Text s :: rest => s ++ textConcat rest
  | _ :: rest => textConcat rest

/-- The scanning mode of the escape-removal filter `strip`: outside any
sequence, after an ESC, inside a CSI, inside an OSC. -/
inductive StripMode
  | sg | se | sc | so
deriving DecidableEq

/-- The claim's notion of "the CRLF-normalized input with all CSI/OSC/ESC
sequences and all non-pass-through control bytes removed": a byte filter
that keeps printable bytes and the pass-through tab, line feed and
carriage return, drops every other C0/DEL byte, and drops every byte that
belongs to an ESC dispatch, a CSI sequence (through its alphabetic final
byte) or an OSC sequence (through its BEL terminator, ESC `\` handing the
`\` back to escape processing). -/
def strip (m : StripMode) : List Nat → List Nat
  | [] => []
  | b :: rest =>
    match m with
    | .sg =>
      if b = 27 then strip .se rest
      else if b = 9 ∨ b = 10 ∨ b = 13 then b :: strip .sg rest
      else if b < 32 ∨ b = 127 then strip .sg rest
      else b :: strip .sg rest
    | .se =>
      if b = 91 then strip .sc rest
      else if b = 93 then strip .so rest
      else if 32 ≤ b ∧ b ≤ 47 then strip .se rest
      else strip .sg rest
    | .sc => if isAlphaByte b then strip .sg rest else strip .sc rest
    | .so =>
      if b = 7 then strip .sg rest
      else if b = 27 then strip .se rest
      else strip .so rest

/-- The strip mode corresponding to a lexer state. -/
def modeOf : LexMode → StripMode
  | .ground _ => .sg
  | .escape _ => .se
  | .csi _ _ _ _ => .sc
  | .osc _ _ => .so

/-- The text still buffered in a lexer state. -/
def pendingText : LexMode → List Nat
  | .ground txt => txt
  | _ => []

end Nodes

namespace SV

/-- The thirteen control sequences `Shellvetica::str_2_ast` recognizes:
the eight standard foreground selectors and the five close spellings. -/
def recognizedSeq (seq : List Char) : Prop :=
  seq = [escChar, '[', '3', '0', 'm'] ∨ seq = [escChar, '[', '3', '1', 'm'] ∨
  seq = [escChar, '[', '3', '2', 'm'] ∨ seq = [escChar, '[', '3', '3', 'm'] ∨
  seq = [escChar, '[', '3', '4', 'm'] ∨ seq = [escChar, '[', '3', '5', 'm'] ∨
  seq = [escChar, '[', '3', '6', 'm'] ∨ seq = [escChar, '[', '3', '7', 'm'] ∨
  seq = [escChar, '[', '3', '9', 'm'] ∨ seq = [escChar, '[', '4', '9', 'm'] ∨
  seq = [escChar, '[', '3', '9', ';', '4', '9', 'm'] ∨
  seq = [escChar, '[', '4', '9', ';', '3', '9', 'm'] ∨
  seq = [escChar, '[', '0', 'm']

instance (seq : List Char) : Decidable (recognizedSeq seq) := by
  unfold recognizedSeq
  infer_instance

end SV

/-- Claim C1: bold/bright symmetry of the style resolver.  For every
standard color index 0-7, folding `[1]` (bold on), then the standard
foreground selection `30+c`, then `[22]` (bold off) yields a `Standard`
foreground with `fg_bright_from_bold` false; and folding the explicit
bright selection `90+c`, then `[1]`, then `[22]` leaves the foreground
`Bright`. -/
theorem C1_bold_bright_symmetry : ∀ c : Fin 8,
    (Styles.from_ansi_node [[1], [30 + c.val], [22]]).foreground
        = some (.Standard (Styles.EightBitColor.from_u8 c.val)) ∧
    (Styles.from_ansi_node [[1], [30 + c.val], [22]]).fg_bright_from_bold = false ∧
    (Styles.from_ansi_node [[90 + c.val], [1], [22]]).foreground
        = some (.Bright (Styles.EightBitColor.from_u8 c.val)) := by
  decide

/-- Claim C2 (evidence of the code bug): the provenance flag is not
cleared when the foreground is replaced.  After `[1], [31]` the flag is
set; a subsequent explicit bright selection `[91]` or palette selection
`[38, 5, 196]` replaces the foreground but leaves the flag set, so the
invariant "the flag is true only while the foreground is a promoted
`Bright` color" is violated, and a later `[22]` downgrades the
explicitly-selected bright foreground to `Standard`. -/
theorem C2_provenance_flag_stale :
    (Styles.from_ansi_node [[1], [31], [91]]).fg_bright_from_bold = true ∧
    (Styles.from_ansi_node [[1], [31], [91]]).foreground = some (.Bright .Red) ∧
    (Styles.from_ansi_node [[1], [31], [91], [22]]).foreground = some (.Standard .Red) ∧
    (Styles.from_ansi_node [[1], [31], [38, 5, 196]]).fg_bright_from_bold = true ∧
    (Styles.from_ansi_node [[1], [31], [38, 5, 196]]).foreground = some (.Palette 196) := by
  decide

/-- Claim C9: reset dominance.  Folding any prefix of parameter groups, then
a group whose first value is 0, then a suffix, gives the same style record
as folding the suffix alone from the default state. -/
theorem C9_reset_dominance (gs1 gs2 : List (List Nat)) (rest : List Nat) :
    Styles.from_ansi_node (gs1 ++ (0 :: rest) :: gs2) = Styles.from_ansi_node gs2 := by
  have hreset : Styles.applyGroup (List.foldl Styles.applyGroup Styles.StyleNode.default gs1)
      (0 :: rest) = Styles.StyleNode.default := rfl
  simp only [Styles.from_ansi_node, List.foldl_append, List.foldl_cons, hreset]

/-- Claim C5 (evidence of the code bug): opening a new color while one is
open neither closes nor removes the previous scope, so the optimizer
output can contain two `Color` open tokens with no `Close` between them.
On the input of the repository's own `optimize_ast_overwritten_colors_test`
the code returns the input unchanged, keeping both opens, instead of the
single merged scope the test expects. -/
theorem C5_overwritten_color_not_closed :
    SV.optimize_ast [.Color .Red, .Color .Blue, .Text 'A', .Close, .Text 'B'] =
      [.Color .Red, .Color .Blue, .Text 'A', .Close, .Text 'B'] ∧
    SV.optimize_ast [.Color .Red, .Color .Blue, .Text 'A', .Close, .Text 'B'] ≠
      [.Color .Blue, .Text 'A', .Close, .Text 'B'] := by
  decide

/-- Claim C7 (counterexample): `to_html` does not leave the style record
unchanged.  On a record with `reverse` set and a red standard foreground,
the record after the call differs from the record before it — the Rust
method takes `&mut self` and swaps the stored `foreground` and
`background` fields in place. -/
theorem C7_reverse_swaps_stored_record :
    (Styles.to_html { Styles.StyleNode.default with reverse := true, foreground := some (.Standard .Red) }).2
      ≠ { Styles.StyleNode.default with reverse := true, foreground := some (.Standard .Red) } := by
  decide

/-- Claim C7 as amended: rendering the markup declaration leaves every
field of the style record unchanged when `reverse` is not set; when
`reverse` is set, the call swaps the stored `foreground` and `background`
fields with each other and leaves every other field unchanged. -/
theorem C7_to_html_state_effect (s : Styles.StyleNode) :
    (Styles.to_html s).2.bold = s.bold ∧
    (Styles.to_html s).2.dim = s.dim ∧
    (Styles.to_html s).2.italic = s.italic ∧
    (Styles.to_html s).2.underline = s.underline ∧
    (Styles.to_html s).2.underline_color = s.underline_color ∧
    (Styles.to_html s).2.subscript = s.subscript ∧
    (Styles.to_html s).2.superscript = s.superscript ∧
    (Styles.to_html s).2.blink = s.blink ∧
    (Styles.to_html s).2.reverse = s.reverse ∧
    (Styles.to_html s).2.hidden = s.hidden ∧
    (Styles.to_html s).2.strikethrough = s.strikethrough ∧
    (Styles.to_html s).2.rapid_blink = s.rapid_blink ∧
    (Styles.to_html s).2.font = s.font ∧
    (Styles.to_html s).2.fraktur = s.fraktur ∧
    (Styles.to_html s).2.proportional_spacing = s.proportional_spacing ∧
    (Styles.to_html s).2.framed = s.framed ∧
    (Styles.to_html s).2.encircled = s.encircled ∧
    (Styles.to_html s).2.overlined = s.overlined ∧
    (Styles.to_html s).2.fg_bright_from_bold = s.fg_bright_from_bold ∧
    (Styles.to_html s).2.bg_bright_from_bold = s.bg_bright_from_bold ∧
    (Styles.to_html s).2.foreground = (if s.reverse then s.background else s.foreground) ∧
    (Styles.to_html s).2.background = (if s.reverse then s.foreground else s.background) := by
  unfold Styles.to_html
  by_cases h : s.reverse <;> simp [h]

/-- Claim C8: palette-to-hex conversion.  Palette indices 0-7 serialize
exactly as the corresponding `Standard` color (the fixed standard table)
and 8-15 exactly as the corresponding `Bright` color (the fixed bright
table); 16-231 serialize as RGB with components `((p-16)/36)*51`,
`((p-16)/6%6)*51`, `((p-16)%6)*51`; 232-255 as the grayscale value
`8+(p-232)*10` on all three channels; an emitted RGB value is 3-digit
shorthand (total length 4 with the `#`) exactly when every channel has
equal high and low nibble, and full 6-digit hex (length 7) otherwise; and
palette 5, 12, 190, 245 give the four literal hex strings. -/
theorem C8_palette_to_hex :
    (∀ p : Nat, p ≤ 7 → Styles.append_color (.Palette p)
        = Styles.append_color (.Standard (Styles.EightBitColor.from_u8 p))) ∧
    (∀ p : Nat, 8 ≤ p → p ≤ 15 → Styles.append_color (.Palette p)
        = Styles.append_color (.Bright (Styles.EightBitColor.from_u8 (p - 8)))) ∧
    (∀ p : Nat, 16 ≤ p → p ≤ 231 → Styles.append_color (.Palette p)
        = Styles.push_hex_rgb ((p - 16) / 36 * 51) ((p - 16) / 6 % 6 * 51) ((p - 16) % 6 * 51)) ∧
    (∀ p : Nat, 232 ≤ p → p ≤ 255 → Styles.append_color (.Palette p)
        = Styles.push_hex_rgb (8 + (p - 232) * 10) (8 + (p - 232) * 10) (8 + (p - 232) * 10)) ∧
    (∀ r g b : Nat, (Styles.push_hex_rgb r g b).length = 4 ↔
        (r % 16 = r / 16 ∧ g % 16 = g / 16 ∧ b % 16 = b / 16)) ∧
    Styles.append_color (.Palette 5) = "#cd00cd" ∧
    Styles.append_color (.Palette 12) = "#5c5cff" ∧
    Styles.append_color (.Palette 190) = "#cf0" ∧
    Styles.append_color (.Palette 245) = "#8a8a8a" := by
  refine ⟨?_, ?_, ?_, ?_, ?_, by decide, by decide, by decide, by decide⟩
  · intro p hp
    simp only [Styles.append_color]
    rw [if_pos hp]
  · intro p hp8 hp15
    simp only [Styles.append_color]
    rw [if_neg (by omega), if_pos hp15]
  · intro p hp16 hp231
    simp only [Styles.append_color]
    rw [if_neg (by omega), if_neg (by omega), if_pos hp231]
    have hmid : (p - 16) % 36 / 6 = (p - 16) / 6 % 6 := by
      have := Nat.mod_mul_right_div_self (p - 16) 6 6
      norm_num at this
      exact this
    rw [hmid]
  · intro p hp232 _
    simp only [Styles.append_color]
    rw [if_neg (by omega), if_neg (by omega), if_neg (by omega)]
  · intro r g b
    simp only [Styles.push_hex_rgb]
    split_ifs with h
    · exact ⟨fun _ => h, fun _ => rfl⟩
    · refine ⟨fun hlen => ?_, fun hc => absurd hc h⟩
      have h2r : (Styles.push_hex r).length = 2 := rfl
      have h2g : (Styles.push_hex g).length = 2 := rfl
      have h2b : (Styles.push_hex b).length = 2 := rfl
      have h7 : ("#" ++ Styles.push_hex r ++ Styles.push_hex g ++ Styles.push_hex b).length = 7 := by
        rw [String.length_append, String.length_append, String.length_append, h2r, h2g, h2b]
        decide
      omega

/-- Witness for C8: the four range rules and the shorthand criterion,
instantiated at palette indices 3, 12, 190, 245 and at the RGB triple
(17, 34, 51). -/
theorem C8_palette_to_hex_witness :
    (3 ≤ 7 ∧ Styles.append_color (.Palette 3)
        = Styles.append_color (.Standard (Styles.EightBitColor.from_u8 3))) ∧
    (Styles.append_color (.Palette 12)
        = Styles.append_color (.Bright (Styles.EightBitColor.from_u8 4))) ∧
    (Styles.append_color (.Palette 190)
        = Styles.push_hex_rgb ((190 - 16) / 36 * 51) ((190 - 16) / 6 % 6 * 51) ((190 - 16) % 6 * 51)) ∧
    (Styles.append_color (.Palette 245)
        = Styles.push_hex_rgb (8 + (245 - 232) * 10) (8 + (245 - 232) * 10) (8 + (245 - 232) * 10)) ∧
    ((Styles.push_hex_rgb 17 34 51).length = 4 ↔
        (17 % 16 = 17 / 16 ∧ 34 % 16 = 34 / 16 ∧ 51 % 16 = 51 / 16)) :=
  ⟨⟨by decide, C8_palette_to_hex.1 3 (by decide)⟩,
   C8_palette_to_hex.2.1 12 (by decide) (by decide),
   C8_palette_to_hex.2.2.1 190 (by decide) (by decide),
   C8_palette_to_hex.2.2.2.1 245 (by decide) (by decide),
   C8_palette_to_hex.2.2.2.2.1 17 34 51⟩

/-- Claim C6: whitespace elision.  For every color and non-whitespace text
characters `t1`, `t2`, optimizing open-color, `t1`, close, three
whitespace characters, same-color-open, `t2`, close yields a single
open/close pair spanning all the text and the whitespace: the close is
suppressed because the forward scan past whitespace-only text finds a
color-open identical to the active one. -/
theorem C6_whitespace_elision (c : SV.SColor) (w1 w2 w3 t1 t2 : Char)
    (hw1 : SV.rustWhitespace w1 = true) (hw2 : SV.rustWhitespace w2 = true)
    (hw3 : SV.rustWhitespace w3 = true)
    (ht1 : SV.rustWhitespace t1 = false) (ht2 : SV.rustWhitespace t2 = false) :
    SV.optimize_ast [.Color c, .Text t1, .Close, .Text w1, .Text w2, .Text w3,
        .Color c, .Text t2, .Close] =
      [.Color c, .Text t1, .Text w1, .Text w2, .Text w3, .Text t2, .Close] := by
  simp [SV.optimize_ast, SV.optimizeGo, SV.emitClose, hw1, hw2, hw3, ht1, ht2]

/-- Witness for C6: the scenario at color red with three spaces and the
texts `A` and `B`. -/
theorem C6_whitespace_elision_witness :
    SV.rustWhitespace ' ' = true ∧ SV.rustWhitespace 'A' = false ∧
    SV.rustWhitespace 'B' = false ∧
    SV.optimize_ast [.Color .Red, .Text 'A', .Close, .Text ' ', .Text ' ', .Text ' ',
        .Color .Red, .Text 'B', .Close] =
      [.Color .Red, .Text 'A', .Text ' ', .Text ' ', .Text ' ', .Text 'B', .Close] :=
  ⟨by decide, by decide, by decide,
    C6_whitespace_elision .Red ' ' ' ' ' ' 'A' 'B' (by decide) (by decide) (by decide)
      (by decide) (by decide)⟩

theorem emitClose_optimizeGo_none (c : SV.SColor) (hnw : Bool) (rest : List SV.Token)
    (h : SV.emitClose c hnw rest = true) :
    SV.emitClose c hnw (SV.optimizeGo none rest) = true := by
  induction rest generalizing hnw with
  | nil => simpa [SV.optimizeGo] using h
  | cons t rest ih =>
    cases t with
    | Text ch =>
      simp only [SV.emitClose] at h
      simpa only [SV.optimizeGo, SV.emitClose] using ih _ h
    | Color d =>
      simp only [SV.emitClose] at h
      simpa only [SV.optimizeGo, SV.emitClose] using h
    | Close => simp [SV.emitClose] at h

theorem optimizeGo_idem (ts : List SV.Token) (cur : Option SV.SColor) :
    SV.optimizeGo cur (SV.optimizeGo cur ts) = SV.optimizeGo cur ts := by
  induction ts generalizing cur with
  | nil => simp [SV.optimizeGo]
  | cons t rest ih =>
    cases t with
    | Text ch => simp [SV.optimizeGo, ih]
    | Color d =>
      cases cur with
      | none => simp [SV.optimizeGo, ih]
      | some c =>
        by_cases hcd : c = d
        · subst hcd
          simp [SV.optimizeGo, ih]
        · simp [SV.optimizeGo, hcd, ih]
    | Close =>
      cases cur with
      | none => simp [SV.optimizeGo, ih]
      | some c =>
        by_cases hec : SV.emitClose c false rest = true
        · have h2 := emitClose_optimizeGo_none c false rest hec
          simp [SV.optimizeGo, hec, h2, ih]
        · simp [SV.optimizeGo, hec, ih]

/-- Claim C4: the run optimizer is idempotent — applying
`Shellvetica::optimize_ast` to its own output yields the same output. -/
theorem C4_optimize_idempotent (ts : List SV.Token) :
    SV.optimize_ast (SV.optimize_ast ts) = SV.optimize_ast ts :=
  optimizeGo_idem ts none

theorem s2aGo_consume_seq (body : List Char) (f : Char) (rest buf : List Char)
    (hb : ∀ c ∈ body, SV.isAsciiAlphaChar c = false)
    (hf : SV.isAsciiAlphaChar f = true) :
    SV.s2aGo (some buf) (body ++ f :: rest)
      = SV.tokenOf (buf ++ body ++ [f]) :: SV.s2aGo none rest := by
  induction body generalizing buf with
  | nil => simp [SV.s2aGo, hf]
  | cons c cs ih =>
    have hc : SV.isAsciiAlphaChar c = false := hb c (by simp)
    have hcs : ∀ x ∈ cs, SV.isAsciiAlphaChar x = false := fun x hx => hb x (by simp [hx])
    simp only [List.cons_append, SV.s2aGo, hc, Bool.false_eq_true, if_false, List.append_eq]
    rw [ih (buf ++ [c]) hcs]
    simp

theorem tokenOf_unrecognized (seq : List Char) (h : ¬ SV.recognizedSeq seq) :
    SV.tokenOf seq = .Color .Black := by
  simp only [SV.recognizedSeq, not_or] at h
  obtain ⟨h1, h2, h3, h4, h5, h6, h7, h8, h9, h10, h11, h12, h13⟩ := h
  simp [SV.tokenOf, h1, h2, h3, h4, h5, h6, h7, h8, h9, h10, h11, h12, h13]

/-- Claim C10: in `Shellvetica::str_2_ast` every CSI sequence — ESC, `[`,
non-alphabetic characters, then an ASCII-alphabetic final — that is not
one of the eight standard foreground selectors and not one of the five
recognized close spellings is mapped to the token `Color Black`, opening a
black color scope rather than being ignored or dropped. -/
theorem C10_unrecognized_csi_black (body : List Char) (f : Char) (rest : List Char)
    (hb : ∀ c ∈ body, SV.isAsciiAlphaChar c = false)
    (hf : SV.isAsciiAlphaChar f = true)
    (hn : ¬ SV.recognizedSeq (SV.escChar :: '[' :: (body ++ [f]))) :
    SV.str_2_ast (SV.escChar :: '[' :: (body ++ f :: rest))
      = .Color .Black :: SV.str_2_ast rest := by
  unfold SV.str_2_ast
  have hstep : SV.s2aGo none (SV.escChar :: '[' :: (body ++ f :: rest))
      = SV.s2aGo (some [SV.escChar, '[']) (body ++ f :: rest) := by
    simp [SV.s2aGo]
  rw [hstep, s2aGo_consume_seq body f rest [SV.escChar, '['] hb hf]
  have hseq : [SV.escChar, '['] ++ body ++ [f] = SV.escChar :: '[' :: (body ++ [f]) := by
    simp
  rw [hseq, tokenOf_unrecognized _ hn]

/-- Witness for C10: the bold sequence ESC`[1m` is not recognized and maps
to a black color-open token. -/
theorem C10_unrecognized_csi_black_witness :
    SV.str_2_ast [SV.escChar, '[', '1', 'm'] = [.Color .Black] := by
  have h := C10_unrecognized_csi_black ['1'] 'm' [] (by decide) (by decide) (by decide)
  simpa [SV.str_2_ast, SV.s2aGo] using h

theorem textConcat_append (a b : List Nodes.AnsiNode) :
    Nodes.textConcat (a ++ b) = Nodes.textConcat a ++ Nodes.textConcat b := by
  induction a with
  | nil => rfl
  | cons n rest ih => cases n <;> simp [Nodes.textConcat, ih]

theorem textConcat_flushT (txt : List Nat) : Nodes.textConcat (Nodes.flushT txt) = txt := by
  unfold Nodes.flushT
  split <;> simp_all [Nodes.textConcat]

theorem lexGo_strip (input : List Nat) : ∀ m : Nodes.LexMode,
    Nodes.textConcat (Nodes.lexGo m input)
      = Nodes.pendingText m ++ Nodes.strip (Nodes.modeOf m) input := by
  induction input with
  | nil =>
    intro m
    cases m with
    | ground txt =>
      simp [Nodes.lexGo, Nodes.strip, Nodes.pendingText, Nodes.modeOf, textConcat_flushT]
    | escape inter => simp [Nodes.lexGo, Nodes.strip, Nodes.pendingText, Nodes.modeOf, Nodes.textConcat]
    | csi gs cg cv inter => simp [Nodes.lexGo, Nodes.strip, Nodes.pendingText, Nodes.modeOf, Nodes.textConcat]
    | osc ps cur => simp [Nodes.lexGo, Nodes.strip, Nodes.pendingText, Nodes.modeOf, Nodes.textConcat]
  | cons b rest ih =>
    intro m
    cases m with
    | ground txt =>
      simp only [Nodes.lexGo, Nodes.strip, Nodes.pendingText, Nodes.modeOf]
      split_ifs with h1 h2 h3
      · rw [textConcat_append, textConcat_flushT, ih (.escape [])]
        simp [Nodes.pendingText, Nodes.modeOf]
      · rw [ih (.ground (txt ++ [b]))]
        simp [Nodes.pendingText, Nodes.modeOf]
      · rw [textConcat_append, textConcat_flushT]
        simp only [Nodes.textConcat]
        rw [ih (.ground [])]
        simp [Nodes.pendingText, Nodes.modeOf]
      · rw [ih (.ground (txt ++ [b]))]
        simp [Nodes.pendingText, Nodes.modeOf]
    | escape inter =>
      simp only [Nodes.lexGo, Nodes.strip, Nodes.pendingText, Nodes.modeOf]
      split_ifs with h1 h2 h3
      · rw [ih (.csi [] [] 0 [])]
        simp [Nodes.pendingText, Nodes.modeOf]
      · rw [ih (.osc [] [])]
        simp [Nodes.pendingText, Nodes.modeOf]
      · rw [ih (.escape (inter ++ [b]))]
        simp [Nodes.pendingText, Nodes.modeOf]
      · simp only [Nodes.textConcat]
        rw [ih (.ground [])]
        simp [Nodes.pendingText, Nodes.modeOf]
    | csi gs cg cv inter =>
      simp only [Nodes.lexGo, Nodes.strip, Nodes.pendingText, Nodes.modeOf]
      split_ifs with h1 h2 h3 h4
      · simp only [Nodes.textConcat]
        rw [ih (.ground [])]
        simp [Nodes.pendingText, Nodes.modeOf]
      · rw [ih (.csi gs cg (cv * 10 + (b - 48)) inter)]
        simp [Nodes.pendingText, Nodes.modeOf]
      · rw [ih (.csi (gs ++ [cg ++ [cv]]) [] 0 inter)]
        simp [Nodes.pendingText, Nodes.modeOf]
      · rw [ih (.csi gs (cg ++ [cv]) 0 inter)]
        simp [Nodes.pendingText, Nodes.modeOf]
      · rw [ih (.csi gs cg cv (inter ++ [b]))]
        simp [Nodes.pendingText, Nodes.modeOf]
    | osc ps cur =>
      simp only [Nodes.lexGo, Nodes.strip, Nodes.pendingText, Nodes.modeOf]
      split_ifs with h1 h2 h3
      · simp only [Nodes.textConcat]
        rw [ih (.ground [])]
        simp [Nodes.pendingText, Nodes.modeOf]
      · simp only [Nodes.textConcat]
        rw [ih (.escape [])]
        simp [Nodes.pendingText, Nodes.modeOf]
      · rw [ih (.osc (ps ++ [cur]) [])]
        simp [Nodes.pendingText, Nodes.modeOf]
      · rw [ih (.osc ps (cur ++ [b]))]
        simp [Nodes.pendingText, Nodes.modeOf]

/-- Claim C3 (modelled from the spec for the `vte` part, see `Nodes.lexGo`):
for every byte buffer, concatenating in order the contents of all `Text`
nodes produced by `TerminalOutputParser::parse_to_nodes` equals the
CRLF-normalized input with all CSI/OSC/ESC sequences and all
non-pass-through control bytes removed (`Nodes.strip` from the ground
mode): CRLF pairs become a single line feed before lexing, lone carriage
returns, line feeds and tabs are preserved inside text runs, and no byte
is substituted. -/
theorem C3_lexer_text_roundtrip (input : List Nat) :
    Nodes.textConcat (Nodes.parse_to_nodes input)
      = Nodes.strip .sg (Nodes.normalize_crlf input) := by
  have h := lexGo_strip (Nodes.normalize_crlf input) (.ground [])
  simpa [Nodes.parse_to_nodes, Nodes.pendingText, Nodes.modeOf] using h
